import Mathlib

/-!
Shallow embedding of the DNS zone import pipeline of `src/ops/dns.rs`
(format detection, BIND zone-file parser, CSV parser, batch import executor),
together with theorems about it.

Rust strings are modelled as Lean `String`; the Rust standard-library string
operations used by the source are re-implemented below over `String.data`
(a `List Char`), keeping Rust semantics.  Machine integers (`u32`, `u16`,
`usize`) are modelled as `Nat`; the numeric-parsing functions enforce the
width bounds where Rust parsing would overflow-reject.
-/

/-! ## Rust standard-library string operations -/

/-- Rust `str::parse::<uN>()` for an unsigned `N`-bit integer: an optional
leading `+`, then one or more ASCII digits, and the value must fit in `N`
bits; everything else is a parse error (`none`). -/
def parseUnsigned (width : Nat) (s : String) : Option Nat :=
  let ds := match s.data with
    | '+' :: rest => rest
    | l => l
  if ds.isEmpty then none
  else if ds.all Char.isDigit then
    let v := ds.foldl (fun a c => a * 10 + (c.toNat - 48)) 0
    if v < 2 ^ width then some v else none
  else none

/-- Rust `str::parse::<u32>()`. -/
def parse_u32 (s : String) : Option Nat := parseUnsigned 32 s

/-- Rust `str::parse::<u16>()`. -/
def parse_u16 (s : String) : Option Nat := parseUnsigned 16 s

/-- Rust `str::split_whitespace`: split on runs of whitespace, discarding
empty tokens. -/
def splitWhitespace (s : String) : List String :=
  ((s.data.splitOnP (fun c => c.isWhitespace)).filter (fun t => !t.isEmpty)).map
    (fun t => String.mk t)

/-- Rust `str::trim_end_matches(c)`: remove every trailing occurrence of
the character `c`. -/
def rtrimMatches (s : String) (c : Char) : String :=
  String.mk ((s.data.reverse.dropWhile (fun d => d == c)).reverse)

/-- Rust `str::trim_matches(c)`: remove every leading and trailing
occurrence of the character `c`. -/
def trimMatches (s : String) (c : Char) : String :=
  String.mk (((s.data.dropWhile (fun d => d == c)).reverse.dropWhile
    (fun d => d == c)).reverse)

/-- Rust `str::trim`: remove leading and trailing whitespace. -/
def rustTrim (s : String) : String :=
  String.mk (((s.data.dropWhile Char.isWhitespace).reverse.dropWhile
    Char.isWhitespace).reverse)

/-- Rust `str::starts_with`. -/
def rustStartsWith (s t : String) : Bool := t.data.isPrefixOf s.data

/-- Rust `str::ends_with(c)` for a single character. -/
def endsWithChar (s : String) (c : Char) : Bool := s.data.getLast? == some c

/-- Rust `str::contains(t)` for a substring `t`. -/
def containsSub (s t : String) : Bool := decide (t.data <:+: s.data)

/-- Rust `str::to_uppercase` (the source only applies it to ASCII record
types, for which it is character-wise `Char.toUpper`). -/
def rustToUppercase (s : String) : String := String.mk (s.data.map Char.toUpper)

/-- Rust slice `join(sep)` for `sep = " "`. -/
def joinSpace : List String → String
  | [] => ""
  | [x] => x
  | x :: y :: xs => x ++ " " ++ joinSpace (y :: xs)

/-- Rust `str::lines`: split on `'\n'`, drop a final empty line produced by a
trailing newline, and strip one trailing `'\r'` from each line. -/
def rustLines (s : String) : List String :=
  let ps := s.data.splitOnP (fun c => c == '\n')
  let ps := if ps.getLast? = some [] then ps.dropLast else ps
  ps.map (fun l => String.mk (if l.getLast? = some '\r' then l.dropLast else l))

/-! ## Data model (`src/api/dns.rs`, `src/error/mod.rs`) -/

/-- `CreateDnsRecord` from `src/api/dns.rs`.  `data` is
`Option<serde_json::Value>`; the import pipeline only ever stores `None`
there, so its payload is modelled as `Unit`. -/
structure CreateDnsRecord where
  record_type : String
  name : String
  content : String
  ttl : Option Nat
  proxied : Option Bool
  priority : Option Nat
  data : Option Unit
deriving DecidableEq

/-- The variants of `CfadError` (`src/error/mod.rs`) reachable from the
DNS import pipeline once the file has been read: `Validation` from the
CSV parser, and the opaque remainder (network/API failures of the
external creation operation), collapsed into `other`. -/
inductive CfadError where
  | validation : String → CfadError
  | other : String → CfadError
deriving DecidableEq

/-- `ImportStats` from `src/ops/dns.rs`. -/
structure ImportStats where
  success : Nat
  failed : Nat
  total : Nat
deriving DecidableEq

/-! ## Format detection (`is_bind_format`) -/

/-- `is_bind_format` from `src/ops/dns.rs`:
`contents.contains("$ORIGIN") || contents.contains("$TTL") || contents.contains(" IN ")`. -/
def is_bind_format (contents : String) : Bool :=
  containsSub contents "$ORIGIN" || containsSub contents "$TTL" ||
    containsSub contents " IN "

/-! ## BIND zone-file parser -/

/-- `should_skip_line`: blank lines and `;` comments. -/
def should_skip_line (line : String) : Bool :=
  line.isEmpty || rustStartsWith line ";"

/-- `process_bind_directive`.  The Rust function mutates
`default_origin`/`default_ttl` and returns `true` when the line is a
directive; this embedding returns `some (origin, ttl)` with the updated
state in that case and `none` when the line is not a directive. -/
def process_bind_directive (line : String) (default_origin : String)
    (default_ttl : Nat) : Option (String × Nat) :=
  if rustStartsWith line "$ORIGIN" then
    some (rtrimMatches (((splitWhitespace line)[1]?).getD "") '.', default_ttl)
  else if rustStartsWith line "$TTL" then
    match (splitWhitespace line)[1]? with
    | some ttl_str => some (default_origin, (parse_u32 ttl_str).getD 1)
    | none => some (default_origin, default_ttl)
  else
    none

/-- `extract_ttl_and_advance`.  The source indexes `parts[idx]` directly;
every call site has `idx = 1` with `parts.len() >= 4`, so the index is in
bounds (out of bounds is modelled as the empty token, which never parses). -/
def extract_ttl_and_advance (parts : List String) (idx : Nat)
    (default_ttl : Nat) : Nat × Nat :=
  match parse_u32 ((parts[idx]?).getD "") with
  | some ttl => (ttl, idx + 1)
  | none => (default_ttl, idx)

/-- `extract_record_type`: skip an `IN` class token if present, then
upper-case the next token; both lookups are `Option`-guarded (`parts.get`
with `?` in the source). -/
def extract_record_type (parts : List String) (idx : Nat) :
    Option (String × Nat) :=
  match parts[idx]? with
  | none => none
  | some tok =>
    let idx := if tok = "IN" then idx + 1 else idx
    match parts[idx]? with
    | none => none
    | some t => some (rustToUppercase t, idx + 1)

/-- `build_full_domain_name`. -/
def build_full_domain_name (name : String) (default_origin : String) : String :=
  if name = "@" then default_origin
  else if endsWithChar name '.' then rtrimMatches name '.'
  else if !default_origin.isEmpty then name ++ "." ++ default_origin
  else name

/-- `parse_record_content`: type-directed content extraction.  All lookups
are `Option`-guarded in the source except the TXT slice `parts[idx..]`,
which is total for `idx <= parts.len()` and is modelled by `List.drop`. -/
def parse_record_content (record_type : String) (parts : List String)
    (idx : Nat) : Option (String × Option Nat) :=
  if record_type = "A" ∨ record_type = "AAAA" ∨ record_type = "CNAME" ∨
      record_type = "NS" then
    match parts[idx]? with
    | none => none
    | some tok => some (rtrimMatches tok '.', none)
  else if record_type = "MX" then
    match parts[idx]? with
    | none => none
    | some ptok =>
      match parts[idx + 1]? with
      | none => none
      | some ctok => some (rtrimMatches ctok '.', parse_u16 ptok)
  else if record_type = "TXT" then
    some (trimMatches (joinSpace (parts.drop idx)) '"', none)
  else none

/-- `parse_bind_record_line`.  The source reads `parts[0]` after the
`parts.len() < 4` guard; `List.headI` is that access (the list is nonempty
there). -/
def parse_bind_record_line (line : String) (default_origin : String)
    (default_ttl : Nat) : Option CreateDnsRecord :=
  let parts := splitWhitespace line
  if parts.length < 4 then none
  else
    let name := parts.headI
    let tpl := extract_ttl_and_advance parts 1 default_ttl
    match extract_record_type parts tpl.2 with
    | none => none
    | some rti =>
      let full_name := build_full_domain_name name default_origin
      match parse_record_content rti.1 parts rti.2 with
      | none => none
      | some cp =>
        some { record_type := rti.1, name := full_name, content := cp.1,
               ttl := some tpl.1, proxied := some false, priority := cp.2,
               data := none }

/-- `process_bind_line`.  The Rust function optionally pushes one record
onto the output vector and updates the directive state; the embedding
returns the optional record together with the new state. -/
def process_bind_line (line : String) (default_origin : String)
    (default_ttl : Nat) : Option CreateDnsRecord × String × Nat :=
  if should_skip_line line then (none, default_origin, default_ttl)
  else
    match process_bind_directive line default_origin default_ttl with
    | some st => (none, st)
    | none =>
      (parse_bind_record_line line default_origin default_ttl,
       default_origin, default_ttl)

/-- One iteration of the `parse_bind_format` loop: trim the line, process
it, append the optional record to the accumulator. -/
def bindStep (acc : List CreateDnsRecord × String × Nat) (line : String) :
    List CreateDnsRecord × String × Nat :=
  (acc.1 ++ (process_bind_line (rustTrim line) acc.2.1 acc.2.2).1.toList,
   (process_bind_line (rustTrim line) acc.2.1 acc.2.2).2)

/-- `parse_bind_format`: fold the per-line processor over the lines,
starting from empty origin and default TTL 1; always returns `Ok`. -/
def parse_bind_format (contents : String) :
    Except CfadError (List CreateDnsRecord) :=
  .ok ((rustLines contents).foldl bindStep ([], "", 1)).1

/-! ## CSV parser -/

/-- `CsvRecord` from `src/ops/dns.rs` (the Rust field `r#type` is `rtype`
here, since `type` is a Lean keyword). -/
structure CsvRecord where
  rtype : String
  name : String
  content : String
  ttl : Nat
  proxied : Bool
  priority : Option Nat
deriving DecidableEq

/-- Models the `csv` crate's default reader on inputs without quoted
fields: each non-empty line is a record whose fields are split on commas;
the first such line is the header row. -/
def csvRows (contents : String) : List (List String) :=
  ((rustLines contents).filter (fun l => !l.isEmpty)).map
    (fun l => (l.data.splitOnP (fun c => c == ',')).map (fun f => String.mk f))

/-- First field of the row lying under the named header column, if any. -/
def lookupField (header row : List String) (field : String) : Option String :=
  (((header.zip row).filter (fun p => p.1 = field)).head?).map (fun p => p.2)

/-- Rust `str::parse::<bool>()`: exactly `true` or `false`. -/
def parseBool (s : String) : Option Bool :=
  if s = "true" then some true else if s = "false" then some false else none

/-- Models the `csv` crate's serde deserialization of one row into
`CsvRecord`: the row must have as many fields as the header; `type`,
`name`, `content` must be present under those header names; a present
`ttl` must parse as `u32` (column absent: `default_ttl()` = 1); a present
`proxied` must parse as `bool` (absent: `false`); a present `priority` is
`None` when empty, otherwise must parse as `u16` (absent: `None`). -/
def deserializeCsvRecord (header row : List String) :
    Except String CsvRecord :=
  if row.length ≠ header.length then .error "record length mismatch" else
  match lookupField header row "type", lookupField header row "name",
      lookupField header row "content" with
  | some t, some n, some c =>
    match
      (match lookupField header row "ttl" with
       | none => Except.ok 1
       | some s =>
         match parse_u32 s with
         | some v => Except.ok v
         | none => Except.error "invalid ttl"),
      (match lookupField header row "proxied" with
       | none => Except.ok false
       | some s =>
         match parseBool s with
         | some b => Except.ok b
         | none => Except.error "invalid proxied"),
      (match lookupField header row "priority" with
       | none => Except.ok none
       | some s =>
         if s.isEmpty then Except.ok none
         else
           match parse_u16 s with
           | some v => Except.ok (some v)
           | none => Except.error "invalid priority") with
    | .ok ttl, .ok prox, .ok prio => .ok ⟨t, n, c, ttl, prox, prio⟩
    | .error e, _, _ => .error e
    | _, .error e, _ => .error e
    | _, _, .error e => .error e
  | _, _, _ => .error "missing field"

/-- The `parse_csv_format` loop: deserialize each row in order; the first
failure aborts the whole call with a `Validation` error (the `?` operator
in the source); otherwise convert and collect in row order. -/
def csvLoop (header : List String) :
    List (List String) → Except CfadError (List CreateDnsRecord)
  | [] => .ok []
  | row :: rows =>
    match deserializeCsvRecord header row with
    | .error e => .error (CfadError.validation ("Invalid CSV format: " ++ e))
    | .ok r =>
      match csvLoop header rows with
      | .error e => .error e
      | .ok rest =>
        .ok ({ record_type := r.rtype, name := r.name, content := r.content,
               ttl := some r.ttl, proxied := some r.proxied,
               priority := r.priority, data := none } :: rest)

/-- `parse_csv_format`. -/
def parse_csv_format (contents : String) :
    Except CfadError (List CreateDnsRecord) :=
  match csvRows contents with
  | [] => .ok []
  | header :: rows => csvLoop header rows

/-- `detect_and_parse_format`. -/
def detect_and_parse_format (contents : String) :
    Except CfadError (List CreateDnsRecord) :=
  if is_bind_format contents then parse_bind_format contents
  else parse_csv_format contents

/-! ## Batch import executor -/

/-- `import_single_record`.  `create` is the external record-creation
operation (`create_record` over the network), modelled as an oracle saying
whether the call succeeds; `log` is the trace of invocations of that
operation, extended by exactly one entry — the single call the source
makes — before the outcome is inspected. -/
def import_single_record (create : CreateDnsRecord → Bool)
    (record : CreateDnsRecord) (stats : ImportStats)
    (log : List CreateDnsRecord) : ImportStats × List CreateDnsRecord :=
  let log := log ++ [record]
  if create record then
    ({ stats with success := stats.success + 1 }, log)
  else
    ({ stats with failed := stats.failed + 1 }, log)

/-- One iteration of the `import_records_batch` loop. -/
def batchStep (create : CreateDnsRecord → Bool)
    (acc : ImportStats × List CreateDnsRecord) (record : CreateDnsRecord) :
    ImportStats × List CreateDnsRecord :=
  import_single_record create record acc.1 acc.2

/-- `import_records_batch`: `total` is set to the sequence length before
the loop; the loop processes the records in order; the function always
returns `Ok`.  The second component is the call trace of `create`. -/
def import_records_batch (create : CreateDnsRecord → Bool)
    (records : List CreateDnsRecord) :
    Except CfadError (ImportStats × List CreateDnsRecord) :=
  .ok (records.foldl (batchStep create)
    ({ success := 0, failed := 0, total := records.length }, []))

/-! ## Executor lemmas -/

theorem countP_not_add {α : Type} (p : α → Bool) (l : List α) :
    l.countP p + l.countP (fun a => !p a) = l.length := by
  induction l with
  | nil => simp
  | cons a l ih =>
    simp only [List.countP_cons, List.length_cons]
    by_cases h : p a <;> simp [h] <;> omega

/-- Fold invariant of the batch-import loop: starting from any statistics
and call log, the loop adds one success per accepted record and one failure
per rejected record, never touches `total`, and extends the call log by
exactly the processed records, in order. -/
theorem batch_foldl_spec (create : CreateDnsRecord → Bool)
    (records : List CreateDnsRecord) (stats0 : ImportStats)
    (log0 : List CreateDnsRecord) :
    (records.foldl (batchStep create) (stats0, log0)).1.success
        = stats0.success + records.countP create ∧
    (records.foldl (batchStep create) (stats0, log0)).1.failed
        = stats0.failed + records.countP (fun r => !create r) ∧
    (records.foldl (batchStep create) (stats0, log0)).1.total = stats0.total ∧
    (records.foldl (batchStep create) (stats0, log0)).2 = log0 ++ records := by
  induction records generalizing stats0 log0 with
  | nil => simp
  | cons r rs ih =>
    simp only [List.foldl_cons, List.countP_cons]
    by_cases h : create r
    · have step : batchStep create (stats0, log0) r =
          ({ stats0 with success := stats0.success + 1 }, log0 ++ [r]) := by
        simp [batchStep, import_single_record, h]
      rw [step]
      obtain ⟨h1, h2, h3, h4⟩ :=
        ih { stats0 with success := stats0.success + 1 } (log0 ++ [r])
      refine ⟨?_, ?_, ?_, ?_⟩
      · rw [h1]; simp [h]; omega
      · rw [h2]; simp [h]
      · rw [h3]
      · rw [h4]; simp
    · have step : batchStep create (stats0, log0) r =
          ({ stats0 with failed := stats0.failed + 1 }, log0 ++ [r]) := by
        simp [batchStep, import_single_record, h]
      rw [step]
      obtain ⟨h1, h2, h3, h4⟩ :=
        ih { stats0 with failed := stats0.failed + 1 } (log0 ++ [r])
      refine ⟨?_, ?_, ?_, ?_⟩
      · rw [h1]; simp [h]
      · rw [h2]; simp [h]; omega
      · rw [h3]
      · rw [h4]; simp

/-- **C1**: for every oracle and every intent sequence, the batch import
executor returns statistics with `success + failed = total` and
`total = length of the sequence`; moreover `total` already equals that
length after processing any prefix of the sequence (it is fixed before the
first item and never changed mid-batch). -/
theorem import_stats_sum_invariant (create : CreateDnsRecord → Bool)
    (records : List CreateDnsRecord) :
    ∃ stats log, import_records_batch create records = .ok (stats, log) ∧
      stats.success + stats.failed = stats.total ∧
      stats.total = records.length ∧
      ∀ k, ((records.take k).foldl (batchStep create)
          ({ success := 0, failed := 0, total := records.length }, [])).1.total
        = records.length := by
  refine ⟨_, _, rfl, ?_, ?_, ?_⟩
  · obtain ⟨h1, h2, h3, _⟩ :=
      batch_foldl_spec create records ⟨0, 0, records.length⟩ []
    rw [h1, h2, h3]
    simpa using countP_not_add create records
  · exact (batch_foldl_spec create records ⟨0, 0, records.length⟩ []).2.2.1
  · intro k
    exact (batch_foldl_spec create (records.take k) ⟨0, 0, records.length⟩ []).2.2.1

/-- **C2**: the batch import executor invokes the external creation
operation exactly once per intent, in input order (the call log equals the
input sequence, for every oracle — in particular a failing item never
short-circuits the remaining calls), counts one success or one failure per
item, and always returns `Ok` statistics, even when the oracle rejects
every record. -/
theorem import_batch_calls_each_once_in_order (create : CreateDnsRecord → Bool)
    (records : List CreateDnsRecord) :
    ∃ stats log, import_records_batch create records = .ok (stats, log) ∧
      log = records ∧
      stats.success = records.countP create ∧
      stats.failed = records.countP (fun r => !create r) ∧
      stats.total = records.length := by
  obtain ⟨h1, h2, h3, h4⟩ :=
    batch_foldl_spec create records ⟨0, 0, records.length⟩ []
  refine ⟨_, _, rfl, ?_, ?_, ?_, ?_⟩
  · simpa using h4
  · simpa using h1
  · simpa using h2
  · simpa using h3

/-! ## BIND parser structure lemmas -/

/-- Per-line output decomposition of the BIND parse loop: the optional
record contributed by each (trimmed) line, with the directive state
threaded through in line order. -/
def bindLineOuts : List String → String → Nat → List (List CreateDnsRecord)
  | [], _, _ => []
  | line :: ls, o, t =>
    (process_bind_line (rustTrim line) o t).1.toList ::
      bindLineOuts ls (process_bind_line (rustTrim line) o t).2.1
        (process_bind_line (rustTrim line) o t).2.2

theorem bind_foldl_decomp (ls : List String) (acc : List CreateDnsRecord)
    (o : String) (t : Nat) :
    (ls.foldl bindStep (acc, o, t)).1 = acc ++ (bindLineOuts ls o t).flatten := by
  induction ls generalizing acc o t with
  | nil => simp [bindLineOuts]
  | cons l ls ih =>
    rw [List.foldl_cons]
    have step : bindStep (acc, o, t) l =
        (acc ++ (process_bind_line (rustTrim l) o t).1.toList,
         (process_bind_line (rustTrim l) o t).2.1,
         (process_bind_line (rustTrim l) o t).2.2) := rfl
    rw [step, ih]
    simp [bindLineOuts]

theorem bindLineOuts_length_le (ls : List String) (o : String) (t : Nat) :
    ∀ out ∈ bindLineOuts ls o t, out.length ≤ 1 := by
  induction ls generalizing o t with
  | nil => intro out h; simp [bindLineOuts] at h
  | cons l ls ih =>
    intro out h
    rw [bindLineOuts] at h
    rcases List.mem_cons.mp h with h | h
    · subst h
      cases (process_bind_line (rustTrim l) o t).1 <;> simp
    · exact ih _ _ out h

/-- **C3**: the zone-file parser succeeds on every input (it never
aborts): the result is `Ok`, and it is the in-order concatenation of
per-line contributions, each of which holds zero or one intents. -/
theorem parse_bind_format_total_line_decomp (contents : String) :
    parse_bind_format contents =
      .ok ((bindLineOuts (rustLines contents) "" 1).flatten) ∧
    ∀ out ∈ bindLineOuts (rustLines contents) "" 1, out.length ≤ 1 := by
  constructor
  · unfold parse_bind_format
    rw [bind_foldl_decomp (rustLines contents) [] "" 1]
    simp
  · exact bindLineOuts_length_le (rustLines contents) "" 1

/-- Witness for C3 at a concrete two-line input: the parse is `Ok` and a
concrete per-line contribution has at most one intent. -/
theorem parse_bind_format_total_line_decomp_witness :
    parse_bind_format "$ORIGIN example.com.\nwww IN A 203.0.113.1" =
      .ok ((bindLineOuts
        (rustLines "$ORIGIN example.com.\nwww IN A 203.0.113.1") "" 1).flatten) ∧
    ([[{ record_type := "A", name := "www.example.com",
         content := "203.0.113.1", ttl := some 1, proxied := some false,
         priority := none, data := none }]].headI : List CreateDnsRecord).length ≤ 1 :=
  ⟨(parse_bind_format_total_line_decomp
      "$ORIGIN example.com.\nwww IN A 203.0.113.1").1,
   (parse_bind_format_total_line_decomp
      "$ORIGIN example.com.\nwww IN A 203.0.113.1").2 _ (by decide)⟩

/-! ## CSV parser lemmas -/

/-- Whether an `Except` value is an error. -/
def exceptIsError (e : Except String CsvRecord) : Bool :=
  match e with
  | .error _ => true
  | .ok _ => false

theorem csvLoop_error_of_row (header : List String) (rows : List (List String))
    (row : List String) (hm : row ∈ rows)
    (he : exceptIsError (deserializeCsvRecord header row) = true) :
    ∃ msg, csvLoop header rows = .error (CfadError.validation msg) := by
  induction rows with
  | nil => cases hm
  | cons r rs ih =>
    cases hdes : deserializeCsvRecord header r with
    | error e => exact ⟨"Invalid CSV format: " ++ e, by simp [csvLoop, hdes]⟩
    | ok rec =>
      have hm' : row ∈ rs := by
        rcases List.mem_cons.mp hm with h | h
        · subst h; rw [hdes] at he; simp [exceptIsError] at he
        · exact h
      obtain ⟨msg, hmsg⟩ := ih hm'
      exact ⟨msg, by simp [csvLoop, hdes, hmsg]⟩

/-- **C4**: if any data row of the tabular input fails to deserialize
(wrong column count, or a non-parsing `ttl`/`proxied`/`priority` field),
the whole CSV parse call returns a `Validation` error — in particular it
returns no records at all, not even the rows preceding the malformed one. -/
theorem parse_csv_malformed_row_aborts (contents : String)
    (header : List String) (rows : List (List String))
    (hrows : csvRows contents = header :: rows)
    (hbad : ∃ row ∈ rows, exceptIsError (deserializeCsvRecord header row) = true) :
    ∃ msg, parse_csv_format contents = .error (CfadError.validation msg) := by
  obtain ⟨row, hm, he⟩ := hbad
  have h := csvLoop_error_of_row header rows row hm he
  unfold parse_csv_format
  rw [hrows]
  exact h

/-- Witness for C4: a file whose second row has a non-numeric `ttl`
column fails the whole parse with a validation error. -/
theorem parse_csv_malformed_row_aborts_witness :
    ∃ msg, parse_csv_format "type,name,content,ttl\nA,www,203.0.113.1,abc"
      = .error (CfadError.validation msg) :=
  parse_csv_malformed_row_aborts "type,name,content,ttl\nA,www,203.0.113.1,abc"
    ["type", "name", "content", "ttl"] [["A", "www", "203.0.113.1", "abc"]]
    rfl ⟨["A", "www", "203.0.113.1", "abc"], by decide⟩

/-! ## Format detector -/

/-- **C5**: the format detector classifies the input as a zone file
exactly when the text contains the origin-directive marker, the
default-TTL directive marker, or the literal substring `" IN "`; it is a
pure function of the text (a Lean function of the string, by
construction). -/
theorem is_bind_format_characterization (contents : String) :
    is_bind_format contents = true ↔
      ("$ORIGIN".data <:+: contents.data ∨ "$TTL".data <:+: contents.data ∨
        " IN ".data <:+: contents.data) := by
  simp [is_bind_format, containsSub, Bool.or_eq_true, decide_eq_true_iff,
    or_assoc]

/-! ## Trailing-dot stripping, characterized -/

theorem head?_dropWhile_not {α : Type} (p : α → Bool) (l : List α) (d : α)
    (h : (l.dropWhile p).head? = some d) : p d = false := by
  induction l with
  | nil => simp [List.dropWhile] at h
  | cons a l ih =>
    rw [List.dropWhile_cons] at h
    by_cases hp : p a
    · rw [if_pos hp] at h
      exact ih h
    · rw [if_neg hp] at h
      simp only [List.head?_cons, Option.some.injEq] at h
      subst h
      exact Bool.eq_false_iff.mpr hp

/-- `rtrimMatches s c` is `s` with all trailing copies of `c` removed: `s`
decomposes as the result followed by a block of `c`s, and the result does
not end in `c`. -/
theorem rtrimMatches_characterization (s : String) (c : Char) :
    ∃ k, s.data = (rtrimMatches s c).data ++ List.replicate k c ∧
      (rtrimMatches s c).data.getLast? ≠ some c := by
  refine ⟨(s.data.reverse.takeWhile (fun d => d == c)).length, ?_, ?_⟩
  · have htake : s.data.reverse.takeWhile (fun d => d == c)
        = List.replicate (s.data.reverse.takeWhile (fun d => d == c)).length c :=
      List.eq_replicate_of_mem (fun b hb => by
        simpa using List.mem_takeWhile_imp hb)
    have hsplit := List.takeWhile_append_dropWhile (fun d => d == c)
      s.data.reverse
    calc s.data = s.data.reverse.reverse := by rw [List.reverse_reverse]
      _ = (s.data.reverse.takeWhile (fun d => d == c)
            ++ s.data.reverse.dropWhile (fun d => d == c)).reverse := by
            rw [hsplit]
      _ = (rtrimMatches s c).data
            ++ (s.data.reverse.takeWhile (fun d => d == c)).reverse := by
            rw [List.reverse_append]; rfl
      _ = (rtrimMatches s c).data
            ++ List.replicate (s.data.reverse.takeWhile (fun d => d == c)).length c := by
            conv_lhs => rw [htake, List.reverse_replicate]
  · intro hlast
    have : (s.data.reverse.dropWhile (fun d => d == c)).head? = some c := by
      have : (rtrimMatches s c).data.getLast?
          = (s.data.reverse.dropWhile (fun d => d == c)).head? := by
        show ((s.data.reverse.dropWhile (fun d => d == c)).reverse).getLast? = _
        rw [List.getLast?_reverse]
      rw [← this]; exact hlast
    have := head?_dropWhile_not (fun d => d == c) s.data.reverse c this
    simp at this

/-! ## Owner-name resolution (C6) -/

/-- Counterexample to C6 as stated: for an owner name with several
trailing dots, the code strips them all, not just one — `"www.."` resolves
to `"www"`, not to the `"www."` that stripping one trailing dot would
give. -/
theorem build_full_domain_name_one_dot_counterexample :
    endsWithChar "www.." '.' = true ∧
    build_full_domain_name "www.." "example.com" = "www" ∧
    ("www" : String) ≠ ("www." : String) := by
  refine ⟨rfl, rfl, ?_⟩
  decide

/-- **C6 (amended)**: owner-name resolution: `@` expands to the default
origin; a name with a trailing dot is fully qualified and has all its
trailing dots stripped (the result no longer ends in a dot); otherwise the
name is joined as `name.origin` when the origin is non-empty and kept
unchanged when the origin is empty. -/
theorem build_full_domain_name_resolution (name origin : String) :
    (name = "@" → build_full_domain_name name origin = origin) ∧
    (name ≠ "@" → endsWithChar name '.' = true →
      ∃ k, 0 < k ∧
        name.data = (build_full_domain_name name origin).data
          ++ List.replicate k '.' ∧
        (build_full_domain_name name origin).data.getLast? ≠ some '.') ∧
    (name ≠ "@" → endsWithChar name '.' = false → origin ≠ "" →
      build_full_domain_name name origin = name ++ "." ++ origin) ∧
    (name ≠ "@" → endsWithChar name '.' = false → origin = "" →
      build_full_domain_name name origin = name) := by
  refine ⟨?_, ?_, ?_, ?_⟩
  · intro h
    simp [build_full_domain_name, h]
  · intro hat hdot
    have hbuild : build_full_domain_name name origin = rtrimMatches name '.' := by
      simp [build_full_domain_name, hat, hdot]
    obtain ⟨k, hk, hlast⟩ := rtrimMatches_characterization name '.'
    refine ⟨k, ?_, by rw [hbuild]; exact hk, by rw [hbuild]; exact hlast⟩
    rcases Nat.eq_zero_or_pos k with hzero | hpos
    · exfalso
      subst hzero
      rw [List.replicate_zero, List.append_nil] at hk
      have : name.data.getLast? = some '.' := by
        simpa [endsWithChar] using hdot
      rw [hk] at this
      exact hlast this
    · exact hpos
  · intro hat hdot hor
    have : origin.isEmpty = false := by
      rcases h : origin.isEmpty with _ | _
      · rfl
      · exact absurd ((String.isEmpty_iff origin).mp h) hor
    simp [build_full_domain_name, hat, hdot, this]
  · intro hat hdot hor
    subst hor
    simp [build_full_domain_name, hat, hdot, String.isEmpty_iff]

/-- Witness for the amended C6 at concrete inputs: `@` under origin
`example.com` resolves to `example.com`, and `www` under that origin to
`www.example.com`. -/
theorem build_full_domain_name_resolution_witness :
    build_full_domain_name "@" "example.com" = "example.com" ∧
    build_full_domain_name "www" "example.com" = "www" ++ "." ++ "example.com" :=
  ⟨(build_full_domain_name_resolution "@" "example.com").1 rfl,
   (build_full_domain_name_resolution "www" "example.com").2.2.1
     (by decide) rfl (by decide)⟩

/-! ## Record-line structure (C7, C8) -/

theorem string_eq_empty_iff (s : String) : s = "" ↔ s.data = [] := by
  rw [String.ext_iff]

theorem splitWhitespace_tok_ne_nil (s t : String) (h : t ∈ splitWhitespace s) :
    t.data ≠ [] := by
  unfold splitWhitespace at h
  simp only [List.mem_map] at h
  obtain ⟨l, hl, rfl⟩ := h
  have hne := (List.mem_filter.mp hl).2
  intro hd
  cases l with
  | nil => simp at hne
  | cons a as => simp at hd

/-- Shape of a successful record-line parse: the record is assembled from
the tokenization exactly as the source does. -/
theorem parse_bind_record_line_some (line origin : String) (ttl : Nat)
    (r : CreateDnsRecord) (h : parse_bind_record_line line origin ttl = some r) :
    ∃ rti cp,
      extract_record_type (splitWhitespace line)
        (extract_ttl_and_advance (splitWhitespace line) 1 ttl).2 = some rti ∧
      parse_record_content rti.1 (splitWhitespace line) rti.2 = some cp ∧
      r = { record_type := rti.1,
            name := build_full_domain_name (splitWhitespace line).headI origin,
            content := cp.1,
            ttl := some (extract_ttl_and_advance (splitWhitespace line) 1 ttl).1,
            proxied := some false, priority := cp.2, data := none } ∧
      4 ≤ (splitWhitespace line).length := by
  simp only [parse_bind_record_line] at h
  split at h
  · cases h
  · rename_i hlt
    split at h
    · cases h
    · rename_i rti hrt
      split at h
      · cases h
      · rename_i cp hcp
        cases h
        exact ⟨rti, cp, hrt, hcp, rfl, by omega⟩

/-- Counterexample to C7 as stated: the zone-file parser can produce an
intent whose name is empty — `@` under an empty default origin resolves to
the empty string, and the record is still emitted. -/
theorem bind_intent_empty_name_counterexample :
    parse_bind_format "@ IN A 203.0.113.1" =
      .ok [{ record_type := "A", name := "", content := "203.0.113.1",
             ttl := some 1, proxied := some false, priority := none,
             data := none }] ∧
    ({ record_type := "A", name := "", content := "203.0.113.1",
       ttl := some 1, proxied := some false, priority := none,
       data := none } : CreateDnsRecord).name = "" :=
  ⟨rfl, rfl⟩

/-- **C7 (amended)**: an intent produced by the zone-file parser from a
record line has an empty name exactly when the owner token is `@` while
the default origin is empty, or the owner token consists solely of dots;
in every other case the name is non-empty.  (The tabular parser copies the
`name` column verbatim, so its names are as empty as the column.) -/
theorem bind_intent_name_empty_iff (line origin : String) (ttl : Nat)
    (r : CreateDnsRecord) (h : parse_bind_record_line line origin ttl = some r)
    (tok : String) (htok : (splitWhitespace line).head? = some tok) :
    (r.name = "" ↔ (tok = "@" ∧ origin = "") ∨
      (tok ≠ "@" ∧ ∀ c ∈ tok.data, c = '.')) := by
  obtain ⟨rti, cp, hrt, hcp, hr, hlen⟩ :=
    parse_bind_record_line_some line origin ttl r h
  have hhead : (splitWhitespace line).headI = tok := by
    cases hl : splitWhitespace line with
    | nil => rw [hl] at htok; cases htok
    | cons a as =>
      rw [hl] at htok
      simp only [List.head?_cons, Option.some.injEq] at htok
      simpa using htok
  have hmem : tok ∈ splitWhitespace line := by
    cases hl : splitWhitespace line with
    | nil => rw [hl] at htok; cases htok
    | cons a as =>
      rw [hl] at htok
      simp only [List.head?_cons, Option.some.injEq] at htok
      exact htok ▸ List.mem_cons_self a as
  have htokne : tok.data ≠ [] := splitWhitespace_tok_ne_nil line tok hmem
  have hname : r.name = build_full_domain_name tok origin := by
    rw [hr, hhead]
  rw [hname]
  by_cases hat : tok = "@"
  · simp [build_full_domain_name, hat]
  · by_cases hdot : endsWithChar tok '.' = true
    · have hbuild : build_full_domain_name tok origin = rtrimMatches tok '.' := by
        simp [build_full_domain_name, hat, hdot]
      rw [hbuild]
      simp only [string_eq_empty_iff, rtrimMatches, List.reverse_eq_nil_iff,
        List.dropWhile_eq_nil_iff, List.mem_reverse, beq_iff_eq]
      constructor
      · intro hall
        exact Or.inr ⟨hat, hall⟩
      · intro hcase
        rcases hcase with ⟨h1, _⟩ | ⟨_, hall⟩
        · exact absurd h1 hat
        · exact hall
    · have hrhs : ¬((tok = "@" ∧ origin = "") ∨
          (tok ≠ "@" ∧ ∀ c ∈ tok.data, c = '.')) := by
        intro hcase
        rcases hcase with ⟨h1, _⟩ | ⟨_, hall⟩
        · exact absurd h1 hat
        · have hlast : tok.data.getLast? = some '.' := by
            rw [List.getLast?_eq_getLast tok.data htokne]
            exact congrArg some (hall _ (List.getLast_mem htokne))
          have : endsWithChar tok '.' = true := by
            simp [endsWithChar, hlast]
          exact hdot this
      have hlhs : build_full_domain_name tok origin ≠ "" := by
        by_cases hor : origin.isEmpty
        · have hb : build_full_domain_name tok origin = tok := by
            simp [build_full_domain_name, hat, hdot, hor]
          rw [hb]
          intro heq
          exact htokne ((string_eq_empty_iff tok).mp heq)
        · have hb : build_full_domain_name tok origin = tok ++ "." ++ origin := by
            simp [build_full_domain_name, hat, hdot, hor]
          rw [hb]
          intro heq
          have := (string_eq_empty_iff (tok ++ "." ++ origin)).mp heq
          simp [String.data_append] at this
      exact iff_of_false hlhs hrhs

/-- Witness for the amended C7: a concrete record line whose owner token
is neither `@` nor all dots yields a non-empty name (`www.example.com`). -/
theorem bind_intent_name_empty_iff_witness :
    ∃ r : CreateDnsRecord,
      parse_bind_record_line "www IN A 203.0.113.1" "example.com" 1 = some r ∧
      (r.name = "" ↔ ("www" = "@" ∧ "example.com" = "") ∨
        ("www" ≠ "@" ∧ ∀ c ∈ "www".data, c = '.')) :=
  ⟨_, rfl, bind_intent_name_empty_iff "www IN A 203.0.113.1" "example.com" 1 _
    rfl "www" rfl⟩

/-! ## Priority population (C8) -/

theorem parse_record_content_priority (rt : String) (parts : List String)
    (idx : Nat) (cp : String × Option Nat)
    (h : parse_record_content rt parts idx = some cp) (hmx : rt ≠ "MX") :
    cp.2 = none := by
  unfold parse_record_content at h
  by_cases h1 : rt = "A" ∨ rt = "AAAA" ∨ rt = "CNAME" ∨ rt = "NS"
  · rw [if_pos h1] at h
    cases hp : parts[idx]? with
    | none => rw [hp] at h; cases h
    | some tok => rw [hp] at h; cases h; rfl
  · rw [if_neg h1, if_neg hmx] at h
    by_cases h3 : rt = "TXT"
    · rw [if_pos h3] at h
      cases h
      rfl
    · rw [if_neg h3] at h
      cases h

/-- Counterexample to C8 as stated: the tabular parser copies the
`priority` column for every record type — an `A` row with priority `10`
yields an intent with `priority = some 10` although its type is not MX. -/
theorem csv_priority_nonmx_counterexample :
    parse_csv_format
        "type,name,content,ttl,proxied,priority\nA,www,203.0.113.1,300,false,10" =
      .ok [{ record_type := "A", name := "www", content := "203.0.113.1",
             ttl := some 300, proxied := some false, priority := some 10,
             data := none }] ∧
    ("A" : String) ≠ "MX" := by
  refine ⟨rfl, ?_⟩
  decide

/-- **C8 (amended)**: every intent produced by the zone-file parser has
`priority = none` unless its record type is `MX`; the tabular parser, by
contrast, copies the `priority` column verbatim regardless of type. -/
theorem bind_priority_only_mx (line origin : String) (ttl : Nat)
    (r : CreateDnsRecord) (h : parse_bind_record_line line origin ttl = some r)
    (hmx : r.record_type ≠ "MX") : r.priority = none := by
  obtain ⟨rti, cp, hrt, hcp, hr, hlen⟩ :=
    parse_bind_record_line_some line origin ttl r h
  have hne : rti.1 ≠ "MX" := by rw [hr] at hmx; exact hmx
  have hp := parse_record_content_priority rti.1 (splitWhitespace line) rti.2
    cp hcp hne
  rw [hr]
  exact hp

/-- Witness for the amended C8: a concrete non-MX record line yields an
intent with no priority. -/
theorem bind_priority_only_mx_witness :
    ∃ r : CreateDnsRecord,
      parse_bind_record_line "www IN A 203.0.113.1" "example.com" 1 = some r ∧
      r.priority = none :=
  ⟨_, rfl, bind_priority_only_mx "www IN A 203.0.113.1" "example.com" 1 _
    rfl (by decide)⟩

/-! ## Directive processing (C9) -/

/-- Counterexample to C9 as stated: `$ORIGIN` with a token carrying two
trailing dots sets the origin with *all* trailing dots stripped, not one —
`"example.com.."` becomes `"example.com"`, not `"example.com."`. -/
theorem origin_directive_trailing_dots_counterexample :
    process_bind_directive "$ORIGIN example.com.." "" 1 =
      some ("example.com", 1) ∧
    ("example.com" : String) ≠ ("example.com." : String) := by
  refine ⟨rfl, ?_⟩
  decide

/-- **C9 (amended)**: on a line starting with the origin marker, the
parser sets the origin to the second whitespace token with *all* trailing
dots stripped (the stored origin no longer ends in a dot), leaving the TTL
unchanged; on a line starting with the TTL marker it sets the default TTL
to the second token parsed as an unsigned integer, falling back to 1 on
parse failure, leaving the origin unchanged; in both cases the line is
consumed as a directive and contributes no intent. -/
theorem process_bind_directive_spec (line origin : String) (ttl : Nat)
    (tok : String) (htok : (splitWhitespace line)[1]? = some tok) :
    (rustStartsWith line "$ORIGIN" = true →
      ∃ o k, process_bind_directive line origin ttl = some (o, ttl) ∧
        tok.data = o.data ++ List.replicate k '.' ∧
        o.data.getLast? ≠ some '.') ∧
    (rustStartsWith line "$ORIGIN" = false →
      rustStartsWith line "$TTL" = true →
      process_bind_directive line origin ttl =
        some (origin, (parse_u32 tok).getD 1)) ∧
    (∀ o t, process_bind_directive line origin ttl = some (o, t) →
      should_skip_line line = false →
      process_bind_line line origin ttl = (none, o, t)) := by
  refine ⟨?_, ?_, ?_⟩
  · intro ho
    obtain ⟨k, hk, hlast⟩ := rtrimMatches_characterization tok '.'
    refine ⟨rtrimMatches tok '.', k, ?_, hk, hlast⟩
    simp [process_bind_directive, ho, htok]
  · intro ho ht
    simp [process_bind_directive, ho, ht, htok]
  · intro o t hdir hskip
    simp [process_bind_line, hskip, hdir]

/-- Witness for the amended C9 at a concrete TTL directive. -/
theorem process_bind_directive_spec_witness :
    process_bind_directive "$TTL 7200" "example.com" 1 =
      some ("example.com", (parse_u32 "7200").getD 1) :=
  (process_bind_directive_spec "$TTL 7200" "example.com" 1 "7200" rfl).2.1
    rfl rfl

/-! ## Token access in record lines (C10) -/

/-- Counterexample to C10 as stated: a 4-token TXT line with no content
tokens does not yield zero intents — it yields one intent whose content is
the empty string. -/
theorem txt_without_content_counterexample :
    parse_bind_record_line "www 300 IN TXT" "" 1 =
      some { record_type := "TXT", name := "www", content := "",
             ttl := some 300, proxied := some false, priority := none,
             data := none } := rfl

/-- **C10 (amended)**: token access past the first token is
`Option`-guarded and in bounds: on A/AAAA/CNAME/NS lines with the content
index out of range, and on MX lines with the priority or target index out
of range, the parser yields no intent; a TXT line always yields content
(the possibly empty join of the remaining tokens); the index returned by
record-type extraction never exceeds the token count (so the TXT slice is
in range); and lines with fewer than 4 tokens are rejected before any raw
indexing. -/
theorem bind_token_access_guarded :
    (∀ rt parts idx,
      (rt = "A" ∨ rt = "AAAA" ∨ rt = "CNAME" ∨ rt = "NS") →
      parts.length ≤ idx → parse_record_content rt parts idx = none) ∧
    (∀ parts idx, parts.length ≤ idx + 1 →
      parse_record_content "MX" parts idx = none) ∧
    (∀ parts idx, ∃ c, parse_record_content "TXT" parts idx = some (c, none)) ∧
    (∀ parts idx rt j, extract_record_type parts idx = some (rt, j) →
      j ≤ parts.length) ∧
    (∀ line origin ttl, (splitWhitespace line).length < 4 →
      parse_bind_record_line line origin ttl = none) := by
  refine ⟨?_, ?_, ?_, ?_, ?_⟩
  · intro rt parts idx h1 hle
    unfold parse_record_content
    rw [if_pos h1, List.getElem?_eq_none hle]
  · intro parts idx hle
    have h1 : ¬("MX" = "A" ∨ "MX" = "AAAA" ∨ "MX" = "CNAME" ∨ "MX" = "NS") := by
      decide
    have h2 : parts[idx + 1]? = none := List.getElem?_eq_none hle
    unfold parse_record_content
    rw [if_neg h1, if_pos rfl]
    cases hp : parts[idx]? with
    | none => rfl
    | some ptok => simp [h2]
  · intro parts idx
    have h1 : ¬("TXT" = "A" ∨ "TXT" = "AAAA" ∨ "TXT" = "CNAME" ∨ "TXT" = "NS") := by
      decide
    have h2 : ¬(("TXT" : String) = "MX") := by decide
    refine ⟨trimMatches (joinSpace (parts.drop idx)) '"', ?_⟩
    unfold parse_record_content
    rw [if_neg h1, if_neg h2, if_pos rfl]
  · intro parts idx rt j h
    simp only [extract_record_type] at h
    split at h
    · cases h
    · rename_i tok hp
      split at h
      · cases h
      · rename_i t hq
        cases h
        obtain ⟨hlt, _⟩ := List.getElem?_eq_some.mp hq
        omega
  · intro line origin ttl h
    simp [parse_bind_record_line, h]

/-- Witness for the amended C10: an `A` line whose content index is past
the tokens yields no intent. -/
theorem bind_token_access_guarded_witness :
    parse_record_content "A" ["www", "IN", "A"] 3 = none :=
  bind_token_access_guarded.1 "A" ["www", "IN", "A"] 3 (Or.inl rfl) (by decide)
